import Mathlib

/-!
# Verification of the eml trading bot (`src/bot.py`)

Shallow embedding of the decision/risk engine of the bot: indicator
computation (`rsi`, `strong_buy_signal`), the persisted daily risk-state
(`register_spend`, `compute_daily_controls`, `save_state`,
`should_cooldown`), the exit manager (`manage_positions`), the entry
sizing and symbol scan of `main`, and the per-cycle ordering of the main
loop.  Python floats are modelled as rationals (`ℚ`); dollar amounts,
prices and timestamps are exact rationals.  Fallible operations are
modelled with `Except`/`Option`.
-/

namespace EmlBot

/-- A Python exception, as far as the embedding needs to distinguish them. -/
inductive PyError where
  | nameError (msg : String)
  | otherError (msg : String)
deriving DecidableEq

/-- A brokerage position as read by the bot: `p.symbol`, `p.avg_entry_price`,
`p.current_price`, `p.qty` (all converted with `float(...)` in the source). -/
structure Position where
  symbol : String
  avg_entry_price : ℚ
  current_price : ℚ
  qty : ℚ
deriving DecidableEq

/-- An order request as passed to `api.submit_order` (keyword arguments of the
calls in the source; `qty` and `notional` are mutually exclusive). -/
structure Order where
  symbol : String
  side : String
  order_type : String
  time_in_force : String
  qty : Option ℚ
  notional : Option ℚ
  limit_price : Option ℚ
  extended_hours : Bool
deriving DecidableEq

/-- Account snapshot fields read by `main` from `api.get_account()`. -/
structure Acct where
  equity : ℚ
  buying_power : ℚ
  cash : ℚ
  last_equity : ℚ
deriving DecidableEq

/-- The per-day record stored under `state[today_key()]`:
`{"spent": ..., "last_trade_ts": ..., "symbol_trades": {...}}`.
`last_trade_ts` is kept as a rational timestamp (the source stores
`int(time.time())`; only differences against a cooldown window matter). -/
structure DayState where
  spent : ℚ
  last_trade_ts : ℚ
  symbol_trades : List (String × ℕ)
deriving DecidableEq

/-- The JSON state file: a finite map from date keys to day records,
modelled as an association list with at most one binding per key. -/
abbrev BotState := List (String × DayState)

/-- Dictionary lookup `state.get(k)`. -/
def lookupDay (k : String) : BotState → Option DayState
  | [] => none
  | (k', d) :: rest => if k' = k then some d else lookupDay k rest

/-- Dictionary update `state[k] = d` (overwrites an existing binding,
appends otherwise). -/
def setDay (k : String) (d : DayState) : BotState → BotState
  | [] => [(k, d)]
  | (k', d') :: rest => if k' = k then (k, d) :: rest else (k', d') :: setDay k d rest

/-- `dict.get(sym, 0)` on a `symbol_trades` map. -/
def countOf (sym : String) : List (String × ℕ) → ℕ
  | [] => 0
  | (s, n) :: rest => if s = sym then n else countOf sym rest

/-- `symbol_trades[sym] = symbol_trades.get(sym, 0) + 1`. -/
def bumpCount (sym : String) : List (String × ℕ) → List (String × ℕ)
  | [] => [(sym, 1)]
  | (s, n) :: rest => if s = sym then (s, n + 1) :: rest else (s, n) :: bumpCount sym rest

/-- `float(state[tk].get("spent", 0.0))` with `state.get(tk, {})`:
the cumulative spend recorded for date `tk`, 0 when absent. -/
def spentOn (tk : String) (st : BotState) : ℚ :=
  ((lookupDay tk st).map DayState.spent).getD 0

/-- `int(state.get(tk, {}).get("last_trade_ts", 0))`. -/
def lastTradeTsOn (tk : String) (st : BotState) : ℚ :=
  ((lookupDay tk st).map DayState.last_trade_ts).getD 0

/-- `state.get(tk, {}).get("symbol_trades", {}).get(sym, 0)`. -/
def tradesOn (tk : String) (sym : String) (st : BotState) : ℕ :=
  countOf sym (((lookupDay tk st).map DayState.symbol_trades).getD [])

/-! ## Configuration defaults (lines 19–45 of the source) -/

/-- `MAX_TRADES_PER_SYMBOL` default: 2 trades per symbol per day. -/
def MAX_TRADES_PER_SYMBOL : ℕ := 2

/-- `TAKE_PROFIT_PCT` default `1.5`. -/
def TAKE_PROFIT_PCT : ℚ := 3 / 2

/-- `STOP_LOSS_PCT` default `-1.0`. -/
def STOP_LOSS_PCT : ℚ := -1

/-- `MAX_DAILY_SPEND` default `90.0`. -/
def MAX_DAILY_SPEND : ℚ := 90

/-- `ORDER_NOTIONAL` default `32.50`. -/
def ORDER_NOTIONAL : ℚ := 65 / 2

/-- `CASH_BUFFER` default `2.00`. -/
def CASH_BUFFER : ℚ := 2

/-- `COOLDOWN_MINUTES` default 15. -/
def COOLDOWN_MINUTES : ℕ := 15

/-- `VOLUME_SPIKE` default `1.10` — the configured volume multiplier
("vol > 110% of vol avg"). -/
def VOLUME_SPIKE : ℚ := 11 / 10

/-! ## Indicator engine -/

/-- `series.diff()` without its leading NaN: consecutive close-to-close
deltas, `deltas[i] = prices[i+1] - prices[i]`. -/
def priceDeltas (prices : List ℚ) : List ℚ :=
  List.zipWith (fun a b => b - a) prices prices.tail

/-- Average of the positive parts of a window of deltas:
`delta.clip(lower=0).rolling(length).mean()` on one full window. -/
def gainAvg (length : ℕ) (w : List ℚ) : ℚ :=
  (w.map (fun d => max d 0)).sum / length

/-- Average of the sign-flipped negative parts of a window of deltas:
`(-delta.clip(upper=0)).rolling(length).mean()` on one full window. -/
def lossAvg (length : ℕ) (w : List ℚ) : ℚ :=
  (w.map (fun d => max (-d) 0)).sum / length

/-- The denominator used by `rsi`: `loss.replace(0, 1e-9)` — the rolling
loss average with exact zeros replaced by `1e-9`. -/
def rsiDenom (length : ℕ) (w : List ℚ) : ℚ :=
  if lossAvg length w = 0 then 1 / 1000000000 else lossAvg length w

/-- The RSI value produced from one full window `w` of `length` deltas:
`rs = gain / loss.replace(0, 1e-9); 100 - (100 / (1 + rs))`. -/
def rsiWindow (length : ℕ) (w : List ℚ) : ℚ :=
  let rs := gainAvg length w / rsiDenom length w
  100 - 100 / (1 + rs)

/-- `rsi(series, length)` (lines 91–96): the list of *defined* values of
`100 - 100/(1+rs)`.  A value is defined at position `i` of the delta
series exactly when a full window of `length` deltas ends there (pandas
yields NaN earlier); the window is `deltas[i+1-length .. i]`. -/
def rsi (length : ℕ) (prices : List ℚ) : List ℚ :=
  let deltas := priceDeltas prices
  (List.range deltas.length).filterMap fun i =>
    if length ≤ i + 1 then some (rsiWindow length ((deltas.drop (i + 1 - length)).take length))
    else none

/-- `strong_buy_signal` (lines 115–124) applied to the last row's values.
The volume test uses the literal `1.2` from line 122 (written `6/5`), not
the configured `VOLUME_SPIKE`. -/
def strong_buy_signal (ema9 ema21 rsiLast volume volAvg : ℚ) : Bool :=
  let trend_ok : Bool := ema9 > ema21
  let rsi_ok : Bool := 52 ≤ rsiLast ∧ rsiLast ≤ 68
  let volume_ok : Bool := volume > volAvg * (6 / 5)
  trend_ok && rsi_ok && volume_ok

/-! ## Risk state store -/

/-- The raw durable write `json.dump(state, f)` inside `save_state`, which the
environment may fail: `ok` yields the newly written contents, `error` a raised
exception.  `writeOk` abstracts whether the write succeeds. -/
def rawStateWrite (writeOk : Bool) (st : BotState) : Except String BotState :=
  if writeOk then Except.ok st else Except.error "write failed"

/-- `save_state` (lines 65–70): attempts the durable write and swallows any
exception (`except Exception: pass`), returning the resulting disk contents.
Its Lean type is total — it can never propagate an error to the caller. -/
def save_state (writeOk : Bool) (disk st : BotState) : BotState :=
  match rawStateWrite writeOk st with
  | Except.ok d => d
  | Except.error _ => disk

/-- `register_spend` (lines 163–174), in-memory part: `setdefault(tk, {})`,
then add `amount` to `spent` (missing keys default to 0), set
`last_trade_ts = now`, and when a symbol is given bump its trade count. -/
def register_spend (tk : String) (now amount : ℚ) (symbol : Option String)
    (st : BotState) : BotState :=
  let cur := (lookupDay tk st).getD ⟨0, 0, []⟩
  let d : DayState :=
    ⟨cur.spent + amount, now,
      match symbol with
      | none => cur.symbol_trades
      | some s => bumpCount s cur.symbol_trades⟩
  setDay tk d st

/-- `register_spend` together with its final `save_state(state)` call:
returns the in-memory state and the disk contents after the flush attempt. -/
def register_spend_run (writeOk : Bool) (tk : String) (now amount : ℚ)
    (symbol : Option String) (st disk : BotState) : BotState × BotState :=
  let st1 := register_spend tk now amount symbol st
  (st1, save_state writeOk disk st1)

/-- The state-mutation part of `compute_daily_controls` (lines 139–149): if
today's key is absent, install a fresh record `{"spent": 0.0,
"last_trade_ts": 0, "symbol_trades": {}}`; return the state and the
`spent` value read back for gating. -/
def compute_daily_controls (tk : String) (st : BotState) : BotState × ℚ :=
  match lookupDay tk st with
  | none => (setDay tk ⟨0, 0, []⟩ st, 0)
  | some d => (st, d.spent)

/-- `should_cooldown` (lines 208–211): true when the *global* last trade is
more recent than the cooldown window. -/
def should_cooldown (tk : String) (st : BotState) (now cooldown_sec : ℚ) : Bool :=
  now - lastTradeTsOn tk st < cooldown_sec

/-! ## Orders and the exit manager -/

/-- `round(x, 2)`.  (Python rounds floats half-to-even; the difference from
half-up can only show on exact half-cents, which no claim touches.) -/
def round2 (x : ℚ) : ℚ := (⌊x * 100 + 1 / 2⌋ : ℤ) / 100

/-- The market-sell order submitted by `manage_positions` for a position:
full quantity, `side="sell"`, `type="market"`, `time_in_force="day"`. -/
def marketSellDay (sym : String) (qty : ℚ) : Order :=
  ⟨sym, "sell", "market", "day", some qty, none, none, false⟩

/-- The per-position body of `manage_positions` (lines 217–244):
`pnl_pct = (last - entry) / entry * 100`; stop-loss branch when
`pnl_pct ≤ STOP_LOSS_PCT`, take-profit branch when `pnl_pct ≥ TAKE_PROFIT_PCT`,
each submitting a full-quantity market sell; otherwise no order. -/
def exit_decision (stop_loss_pct take_profit_pct : ℚ) (p : Position) : Option Order :=
  let pnl_pct := (p.current_price - p.avg_entry_price) / p.avg_entry_price * 100
  if pnl_pct ≤ stop_loss_pct then some (marketSellDay p.symbol p.qty)
  else if pnl_pct ≥ take_profit_pct then some (marketSellDay p.symbol p.qty)
  else none

/-- `manage_positions` (lines 213–244) when every submission succeeds: the
list of exit orders submitted for the open positions, in scan order. -/
def manage_positions (stop_loss_pct take_profit_pct : ℚ)
    (positions : List Position) : List Order :=
  positions.filterMap (exit_decision stop_loss_pct take_profit_pct)

/-- `manage_positions` with a fallible `api.submit_order`: the loop body has
no `try`/`except`, so a raised submission error propagates out of the
function immediately (to the `except` of the main loop), abandoning the
remaining positions.  Returns the orders whose submission was attempted and
the error, if one was raised. -/
def manage_positions_run (stop_loss_pct take_profit_pct : ℚ)
    (submit : Order → Except String Unit) :
    List Position → List Order × Option String
  | [] => ([], none)
  | p :: ps =>
    match exit_decision stop_loss_pct take_profit_pct p with
    | none => manage_positions_run stop_loss_pct take_profit_pct submit ps
    | some o =>
      match submit o with
      | Except.ok _ =>
        let r := manage_positions_run stop_loss_pct take_profit_pct submit ps
        (o :: r.1, r.2)
      | Except.error e => ([o], some e)

/-! ## Entry path of `main` -/

/-- `can_trade_symbol` as the program actually resolves it: the name is used
at line 349 but defined nowhere in the program, so evaluating the call
raises `NameError` before any argument logic can run. -/
def can_trade_symbol (st : BotState) (sym : String) (cap : ℕ) : Except PyError Bool :=
  Except.error (PyError.nameError "name 'can_trade_symbol' is not defined")

/-- Modelled from the spec: the missing per-symbol daily-cap check that
line 349 calls (`can_trade_symbol(state, sym, MAX_TRADES_PER_SYMBOL)`).
The spec requires "its per-symbol trade_count below its daily cap"; the
source comment at line 348 reads "Check symbol daily trade limit". -/
def can_trade_symbol_spec (tk : String) (st : BotState) (sym : String) (cap : ℕ) : Bool :=
  tradesOn tk sym st < cap

/-- `market_is_open or ALLOW_EXTENDED_HOURS` — `can_trade_now` (lines 102–105). -/
def can_trade_now (is_open allow_extended_hours : Bool) : Bool :=
  is_open || allow_extended_hours

/-- `submit_buy_notional` (lines 176–206): market order during the session,
otherwise a limit order at `round(last_close * 1.002, 2)` flagged for
extended hours; notional rounded to cents in both cases. -/
def submit_buy_notional (is_open : Bool) (last_close : ℚ) (sym : String)
    (notional : ℚ) : Order :=
  if is_open then ⟨sym, "buy", "market", "day", none, some (round2 notional), none, false⟩
  else
    ⟨sym, "buy", "limit", "day", none, some (round2 notional),
      some (round2 (last_close * (1002 / 1000))), true⟩

/-- The sizing step of `main` (lines 328–338): remaining daily budget and
buying power net of the cash buffer, both floored at zero; skip the cycle
(`none`) when either is below `ORDER_NOTIONAL`, otherwise
`notional = min(ORDER_NOTIONAL, remaining_budget, available)`. -/
def entry_sizing (max_daily_spend spent buying_power cash_buffer
    order_notional : ℚ) : Option ℚ :=
  let remaining_budget := max 0 (max_daily_spend - spent)
  let available := max 0 (buying_power - cash_buffer)
  if available < order_notional ∨ remaining_budget < order_notional then none
  else some (min order_notional (min remaining_budget available))

/-- The last-row indicator values computed for one symbol in the entry scan
(lines 352–362): bar count, `ema9`, `ema21`, `rsi`, `volume`, `vol_avg` of
the most recent bar, and the last close (used only for extended-hours limit
pricing). -/
structure SymInfo where
  barsLen : ℕ
  ema9 : ℚ
  ema21 : ℚ
  rsiLast : ℚ
  volume : ℚ
  volAvg : ℚ
  lastClose : ℚ

/-- Fixed data of one entry scan: how `can_trade_symbol` resolves, the bar
data per symbol, the session flag, the date key, the wall clock, the open
position symbols, and the `position_exists` probe. -/
structure ScanCtx where
  canTrade : String → Except PyError Bool
  info : String → SymInfo
  is_open : Bool
  tk : String
  now : ℚ
  openSyms : List String
  posExists : String → Bool

/-- Result of the entry section of one cycle: buy orders submitted, the
risk state after the section, and the exception (if any) that aborted it
and was caught by the outer loop handler. -/
structure ScanOut where
  buys : List Order
  state : BotState
  err : Option PyError
deriving DecidableEq

/-- The entry section skipped (any `continue` path): nothing bought, state
untouched, no exception. -/
def skipOut (st : BotState) : ScanOut := ⟨[], st, none⟩

/-- The symbol scan of `main` (lines 341–371): for each symbol in order,
skip it when already in `open_syms`, when `position_exists` reports it, when
`can_trade_symbol` denies it, when fewer than 50 bars are available, or when
`strong_buy_signal` is false; otherwise submit a buy for `notional`, record
the spend, and stop (`break` — first match only).  An exception raised by
`can_trade_symbol` aborts the whole scan with no buy and no state change. -/
def entry_scan (c : ScanCtx) (notional : ℚ) (st : BotState) :
    List String → ScanOut
  | [] => skipOut st
  | sym :: rest =>
    if sym ∈ c.openSyms then entry_scan c notional st rest
    else if c.posExists sym then entry_scan c notional st rest
    else
      match c.canTrade sym with
      | Except.error e => ⟨[], st, some e⟩
      | Except.ok false => entry_scan c notional st rest
      | Except.ok true =>
        let i := c.info sym
        if i.barsLen = 0 ∨ i.barsLen < 50 then entry_scan c notional st rest
        else if strong_buy_signal i.ema9 i.ema21 i.rsiLast i.volume i.volAvg then
          ⟨[submit_buy_notional c.is_open i.lastClose sym notional],
            register_spend c.tk c.now notional (some sym) st, none⟩
        else entry_scan c notional st rest

/-- The whole entry section of one cycle (lines 310–371): session gate,
global cooldown gate, open-position ceiling, sizing, then the symbol scan. -/
def entry_cycle (c : ScanCtx) (allow_extended_hours : Bool) (cooldown_sec : ℚ)
    (max_open_positions : ℕ) (max_daily_spend spent buying_power cash_buffer
    order_notional : ℚ) (syms : List String) (st : BotState) : ScanOut :=
  if ¬ can_trade_now c.is_open allow_extended_hours then skipOut st
  else if should_cooldown c.tk st c.now cooldown_sec then skipOut st
  else if max_open_positions ≤ c.openSyms.dedup.length then skipOut st
  else
    match entry_sizing max_daily_spend spent buying_power cash_buffer order_notional with
    | none => skipOut st
    | some notional => entry_scan c notional st syms

/-! ## One cycle of the main loop as an event trace -/

/-- The four daily stop gates of `main` (lines 285–305), in evaluation order. -/
inductive Gate where
  | profitGoal
  | maxLoss
  | lossPct
  | maxSpend
deriving DecidableEq

/-- Observable actions of one cycle: an exit order submitted by
`manage_positions`, a tripped daily stop gate, or a buy order submitted by
the entry scan. -/
inductive Event where
  | exitOrder (o : Order)
  | stopGate (g : Gate)
  | buyOrder (o : Order)
deriving DecidableEq

/-- Whether an event is an exit-order submission. -/
def isExitEvent : Event → Bool
  | Event.exitOrder _ => true
  | _ => false

/-- The daily stop checks of `main` (lines 285–305), evaluated in source
order on `pnl_today = equity - last_equity`; the first that trips wins
(each ends the cycle with `continue`). -/
def daily_stop_gate (daily_profit_goal daily_max_loss daily_loss_stop_pct
    equity pnl_today spent max_daily_spend : ℚ) : Option Gate :=
  if pnl_today ≥ daily_profit_goal then some Gate.profitGoal
  else if pnl_today ≤ -daily_max_loss then some Gate.maxLoss
  else if pnl_today ≤ -(equity * daily_loss_stop_pct / 100) then some Gate.lossPct
  else if spent ≥ max_daily_spend then some Gate.maxSpend
  else none

/-- One iteration of the main loop (lines 259–374) as an event trace:
`manage_positions` runs first (line 264), then the account snapshot and
`compute_daily_controls`, then the daily stop gates, and only when none
trips the entry section.  Exit orders are emitted before any gate is even
evaluated. -/
def cycle_trace (stop_loss_pct take_profit_pct : ℚ) (positions : List Position)
    (c : ScanCtx) (acct : Acct)
    (use_equity_pct daily_profit_goal daily_max_loss daily_loss_stop_pct : ℚ)
    (allow_extended_hours : Bool) (cooldown_sec : ℚ) (max_open_positions : ℕ)
    (max_daily_spend cash_buffer order_notional : ℚ) (syms : List String)
    (st : BotState) : List Event :=
  let exits := manage_positions stop_loss_pct take_profit_pct positions
  let buying_power := min acct.buying_power (acct.equity * use_equity_pct)
  let sc := compute_daily_controls c.tk st
  let pnl_today := acct.equity - acct.last_equity
  exits.map Event.exitOrder ++
    match daily_stop_gate daily_profit_goal daily_max_loss daily_loss_stop_pct
        acct.equity pnl_today sc.2 max_daily_spend with
    | some g => [Event.stopGate g]
    | none =>
      (entry_cycle c allow_extended_hours cooldown_sec max_open_positions
          max_daily_spend sc.2 buying_power cash_buffer order_notional syms
          sc.1).buys.map Event.buyOrder

/-! ## Risk-state transitions within one date -/

/-- A transition of the risk state while the date key stays fixed: either a
`register_spend` call or the state-refresh part of `compute_daily_controls`. -/
inductive RiskOp where
  | spendOp (now amount : ℚ) (symbol : Option String)
  | controlsOp
deriving DecidableEq

/-- Apply one transition for date key `tk`. -/
def applyOp (tk : String) (st : BotState) : RiskOp → BotState
  | RiskOp.spendOp now amount symbol => register_spend tk now amount symbol st
  | RiskOp.controlsOp => (compute_daily_controls tk st).1

/-- Apply a sequence of transitions for date key `tk`, oldest first. -/
def applyOps (tk : String) (st : BotState) : List RiskOp → BotState
  | [] => st
  | op :: rest => applyOps tk (applyOp tk st op) rest

/-- A transition records a non-negative spend amount. -/
def spendNonneg : RiskOp → Bool
  | RiskOp.spendOp _ amount _ => 0 ≤ amount
  | RiskOp.controlsOp => true

/-- A concrete scan context exercising the entry path: one would-be buyer
with 60 bars, fast average above slow, oscillator 60, volume 130 against a
baseline of 100, the market open, no open positions, and a fresh state. -/
def c2ctx : ScanCtx :=
  ⟨fun y => Except.ok (can_trade_symbol_spec "2025-01-03" [] y 2),
    fun _ => ⟨60, 2, 1, 60, 130, 100, 10⟩, true, "2025-01-03", 10000, [],
    fun _ => false⟩

/-! ## Helper lemmas -/

theorem lookupDay_setDay_self (tk : String) (d : DayState) (st : BotState) :
    lookupDay tk (setDay tk d st) = some d := by
  induction st with
  | nil => simp [setDay, lookupDay]
  | cons hd rest ih =>
    rcases hd with ⟨k', d'⟩
    by_cases h : k' = tk <;> simp [setDay, lookupDay, h, ih]

theorem spent_getD (tk : String) (st : BotState) :
    ((lookupDay tk st).getD ⟨0, 0, []⟩).spent = spentOn tk st := by
  unfold spentOn
  cases lookupDay tk st <;> simp

theorem spentOn_register_spend (tk : String) (now amount : ℚ)
    (symbol : Option String) (st : BotState) :
    spentOn tk (register_spend tk now amount symbol st) = spentOn tk st + amount := by
  unfold register_spend
  rw [spentOn, lookupDay_setDay_self]
  simp [spent_getD]

theorem lastTradeTsOn_register_spend (tk : String) (now amount : ℚ)
    (symbol : Option String) (st : BotState) :
    lastTradeTsOn tk (register_spend tk now amount symbol st) = now := by
  unfold register_spend
  rw [lastTradeTsOn, lookupDay_setDay_self]
  simp

/-! ## Claim C10 — state persistence never raises -/

/-- C10: `save_state` swallows every write failure, so `register_spend`
returns normally (its Lean type is total) whether or not the durable write
succeeds; on a failed write the returned in-memory state is the same
updated state as on a successful write (spend incremented, timestamp set)
while the persisted state is left unchanged — the caller gets no
indication the flush did not happen. -/
theorem register_spend_swallows_write_failure (tk : String) (now amount : ℚ)
    (symbol : Option String) (st disk : BotState) :
    (register_spend_run false tk now amount symbol st disk).1
        = register_spend tk now amount symbol st
    ∧ (register_spend_run false tk now amount symbol st disk).2 = disk
    ∧ (register_spend_run true tk now amount symbol st disk).1
        = (register_spend_run false tk now amount symbol st disk).1
    ∧ spentOn tk (register_spend tk now amount symbol st) = spentOn tk st + amount
    ∧ lastTradeTsOn tk (register_spend tk now amount symbol st) = now :=
  ⟨rfl, rfl, rfl, spentOn_register_spend tk now amount symbol st,
    lastTradeTsOn_register_spend tk now amount symbol st⟩

/-! ## Claim C7 — threshold-mode entry signal -/

/-- C7 counterexample: the claim says the volume test uses the configured
multiplier (`VOLUME_SPIKE`, default 1.10), but `strong_buy_signal`
hardcodes 1.2.  With `ema9=2 > ema21=1`, `rsi=60` inside the band, and
`volume=115 > vol_avg·VOLUME_SPIKE = 110`, the claim requires a true
signal, yet the code returns false (115 is not above 120). -/
theorem strong_buy_signal_config_multiplier_false :
    strong_buy_signal 2 1 60 115 100 = false
    ∧ ((2 : ℚ) > 1 ∧ (52 : ℚ) ≤ 60 ∧ (60 : ℚ) ≤ 68
        ∧ (115 : ℚ) > 100 * VOLUME_SPIKE) := by
  constructor
  · norm_num [strong_buy_signal]
  · norm_num [VOLUME_SPIKE]

/-- C7 amended: in threshold mode the entry signal is true iff the fast
average exceeds the slow average on the last bar, the oscillator lies in
the 52–68 band, and the last bar's volume exceeds the rolling baseline
multiplied by the hardcoded factor 1.2 (the configured `VOLUME_SPIKE` is
not consulted). -/
theorem strong_buy_signal_iff (e9 e21 r v va : ℚ) :
    strong_buy_signal e9 e21 r v va = true
      ↔ (e9 > e21 ∧ (52 ≤ r ∧ r ≤ 68) ∧ v > va * (6 / 5)) := by
  simp [strong_buy_signal, Bool.and_eq_true, decide_eq_true_eq, and_assoc]

/-! ## Claim C4 — exit rule -/

/-- C4: for a position with positive average entry price, the Exit Manager
computes `pnl_pct = (current - entry)/entry · 100` and submits a
full-quantity market sell with time-in-force "day" exactly when
`pnl_pct ≤ stop_loss_pct` or `pnl_pct ≥ take_profit_pct`; any order it
submits is that full-quantity market sell. -/
theorem exit_rule_iff (stop_loss_pct take_profit_pct : ℚ) (p : Position)
    (h : 0 < p.avg_entry_price) :
    (exit_decision stop_loss_pct take_profit_pct p
        = some (marketSellDay p.symbol p.qty)
      ↔ (p.current_price - p.avg_entry_price) / p.avg_entry_price * 100
            ≤ stop_loss_pct
        ∨ (p.current_price - p.avg_entry_price) / p.avg_entry_price * 100
            ≥ take_profit_pct)
    ∧ ∀ o : Order, exit_decision stop_loss_pct take_profit_pct p = some o →
        o = marketSellDay p.symbol p.qty := by
  set pnl := (p.current_price - p.avg_entry_price) / p.avg_entry_price * 100 with hpnl
  by_cases h1 : pnl ≤ stop_loss_pct
  · constructor
    · simp [exit_decision, ← hpnl, h1]
    · intro o ho
      simp [exit_decision, ← hpnl, h1] at ho
      exact ho.symm
  · by_cases h2 : pnl ≥ take_profit_pct
    · constructor
      · simp [exit_decision, ← hpnl, h1, h2]
      · intro o ho
        simp [exit_decision, ← hpnl, h1, h2] at ho
        exact ho.symm
    · constructor
      · simp [exit_decision, ← hpnl, h1, h2]
      · intro o ho
        simp [exit_decision, ← hpnl, h1, h2] at ho

/-- C4 witness — Scenario 3 of the spec: entry=100.00, current=99.5,
stop_loss_pct=−0.4 gives `pnl_pct = −0.5 ≤ −0.4`, so the Exit Manager
submits the full-quantity market sell. -/
theorem exit_rule_iff_witness :
    0 < (100 : ℚ)
    ∧ exit_decision (-2 / 5) (3 / 2) ⟨"SPY", 100, 199 / 2, 3⟩
        = some (marketSellDay "SPY" 3) :=
  ⟨by norm_num,
    (exit_rule_iff (-2 / 5) (3 / 2) ⟨"SPY", 100, 199 / 2, 3⟩ (by norm_num)).1.mpr
      (Or.inl (by norm_num))⟩

/-! ## Claim C6 — entry sizing -/

/-- C6: with a positive configured order size, the notional computed for a
new entry equals `min(configured_order_size, max_daily_spend − spent,
buying_power − cash_buffer)` floored at zero; the entry section is skipped
exactly when that amount is below the configured order size, and a skip
leaves the cycle with no buys, the risk state untouched, and no error. -/
theorem entry_sizing_spec (max_daily_spend spent buying_power cash_buffer
    order_notional : ℚ) (hO : 0 < order_notional) :
    (∀ n, entry_sizing max_daily_spend spent buying_power cash_buffer
          order_notional = some n →
        n = max 0 (min order_notional
              (min (max_daily_spend - spent) (buying_power - cash_buffer))))
    ∧ (entry_sizing max_daily_spend spent buying_power cash_buffer
          order_notional = none
        ↔ max 0 (min order_notional
              (min (max_daily_spend - spent) (buying_power - cash_buffer)))
            < order_notional)
    ∧ (entry_sizing max_daily_spend spent buying_power cash_buffer
          order_notional = none →
        ∀ (c : ScanCtx) (aeh : Bool) (cd : ℚ) (mo : ℕ) (syms : List String)
          (st : BotState),
          entry_cycle c aeh cd mo max_daily_spend spent buying_power
            cash_buffer order_notional syms st = skipOut st) := by
  have hiff : (max 0 (buying_power - cash_buffer) < order_notional
        ∨ max 0 (max_daily_spend - spent) < order_notional)
      ↔ max 0 (min order_notional
            (min (max_daily_spend - spent) (buying_power - cash_buffer)))
          < order_notional := by
    simp only [max_lt_iff, min_lt_iff, lt_irrefl, false_or]
    constructor
    · rintro (⟨_, h⟩ | ⟨_, h⟩) <;> exact ⟨hO, by tauto⟩
    · rintro ⟨_, h | h⟩ <;> [exact Or.inr ⟨hO, h⟩; exact Or.inl ⟨hO, h⟩]
  refine ⟨?_, ?_, ?_⟩
  · intro n hn
    unfold entry_sizing at hn
    by_cases hc : max 0 (buying_power - cash_buffer) < order_notional
        ∨ max 0 (max_daily_spend - spent) < order_notional
    · rw [if_pos hc] at hn
      exact Option.noConfusion hn
    · rw [if_neg hc] at hn
      push_neg at hc
      rcases hc with ⟨ha, hr⟩
      have ha' : order_notional ≤ buying_power - cash_buffer := by
        rcases le_max_iff.mp ha with h | h
        · linarith
        · exact h
      have hr' : order_notional ≤ max_daily_spend - spent := by
        rcases le_max_iff.mp hr with h | h
        · linarith
        · exact h
      have h1 : max 0 (max_daily_spend - spent) = max_daily_spend - spent :=
        max_eq_right (by linarith)
      have h2 : max 0 (buying_power - cash_buffer) = buying_power - cash_buffer :=
        max_eq_right (by linarith)
      rw [h1, h2] at hn
      have hn' : min order_notional
          (min (max_daily_spend - spent) (buying_power - cash_buffer)) = n :=
        Option.some.inj hn
      rw [← hn']
      rw [min_eq_left (le_min hr' ha'), max_eq_right (le_of_lt hO)]
  · unfold entry_sizing
    by_cases hc : max 0 (buying_power - cash_buffer) < order_notional
        ∨ max 0 (max_daily_spend - spent) < order_notional
    · rw [if_pos hc]
      exact ⟨fun _ => hiff.mp hc, fun _ => rfl⟩
    · rw [if_neg hc]
      constructor
      · intro h
        exact absurd h (by simp)
      · intro h
        exact absurd (hiff.mpr h) hc
  · intro hnone c aeh cd mo syms st
    unfold entry_cycle
    by_cases g1 : can_trade_now c.is_open aeh
    · by_cases g2 : should_cooldown c.tk st c.now cd = true
      · simp [g1, g2]
      · by_cases g3 : mo ≤ c.openSyms.dedup.length
        · simp [g1, g2, g3]
        · simp [g1, g2, g3, hnone]
    · simp [g1]

/-- C6 witness — Scenario 2 of the spec: cumulative_spend=88,
max_daily_spend=90 and order size 32.50 leave the claim's available
notional at exactly 2.00, below the order size, so the sizing step skips
(`none`) and the entry section of the cycle leaves the state untouched. -/
theorem entry_sizing_spec_witness :
    0 < ORDER_NOTIONAL
    ∧ entry_sizing MAX_DAILY_SPEND 88 1000 CASH_BUFFER ORDER_NOTIONAL = none
    ∧ max 0 (min ORDER_NOTIONAL (min (MAX_DAILY_SPEND - 88) (1000 - CASH_BUFFER)))
        = 2 :=
  ⟨by norm_num [ORDER_NOTIONAL],
    (entry_sizing_spec MAX_DAILY_SPEND 88 1000 CASH_BUFFER ORDER_NOTIONAL
        (by norm_num [ORDER_NOTIONAL])).2.1.mpr
      (by norm_num [ORDER_NOTIONAL, MAX_DAILY_SPEND, CASH_BUFFER]),
    by norm_num [ORDER_NOTIONAL, MAX_DAILY_SPEND, CASH_BUFFER]⟩

/-! ## Claim C5 — oscillator bounds -/

theorem gainAvg_nonneg (length : ℕ) (w : List ℚ) : 0 ≤ gainAvg length w := by
  unfold gainAvg
  apply div_nonneg
  · apply List.sum_nonneg
    intro x hx
    rcases List.mem_map.mp hx with ⟨d, _, rfl⟩
    exact le_max_right d 0
  · exact_mod_cast Nat.zero_le length

theorem lossAvg_nonneg (length : ℕ) (w : List ℚ) : 0 ≤ lossAvg length w := by
  unfold lossAvg
  apply div_nonneg
  · apply List.sum_nonneg
    intro x hx
    rcases List.mem_map.mp hx with ⟨d, _, rfl⟩
    exact le_max_right (-d) 0
  · exact_mod_cast Nat.zero_le length

theorem rsiDenom_pos (length : ℕ) (w : List ℚ) : 0 < rsiDenom length w := by
  unfold rsiDenom
  by_cases h : lossAvg length w = 0
  · rw [if_pos h]
    norm_num
  · rw [if_neg h]
    exact lt_of_le_of_ne (lossAvg_nonneg length w) (Ne.symm h)

theorem rsiWindow_bounds (length : ℕ) (w : List ℚ) :
    0 ≤ rsiWindow length w ∧ rsiWindow length w ≤ 100 := by
  unfold rsiWindow
  have hg := gainAvg_nonneg length w
  have hd := rsiDenom_pos length w
  have hrs : 0 ≤ gainAvg length w / rsiDenom length w :=
    div_nonneg hg (le_of_lt hd)
  constructor
  · have hle : (100 : ℚ) / (1 + gainAvg length w / rsiDenom length w) ≤ 100 :=
      div_le_self (by norm_num) (by linarith)
    linarith
  · have hpos : (0 : ℚ) < 100 / (1 + gainAvg length w / rsiDenom length w) :=
      div_pos (by norm_num) (by linarith)
    linarith

theorem rsiWindow_zeros (length : ℕ) (w : List ℚ) (h : ∀ d ∈ w, d = 0) :
    rsiWindow length w = 0 := by
  have hg : gainAvg length w = 0 := by
    unfold gainAvg
    rw [List.sum_eq_zero, zero_div]
    intro x hx
    rcases List.mem_map.mp hx with ⟨d, hd, rfl⟩
    rw [h d hd]
    simp
  have hl : lossAvg length w = 0 := by
    unfold lossAvg
    rw [List.sum_eq_zero, zero_div]
    intro x hx
    rcases List.mem_map.mp hx with ⟨d, hd, rfl⟩
    rw [h d hd]
    simp
  unfold rsiWindow rsiDenom
  rw [hg, hl]
  norm_num

theorem mem_rsi (length : ℕ) (prices : List ℚ) (x : ℚ)
    (hx : x ∈ rsi length prices) :
    ∃ w, x = rsiWindow length w ∧ ∀ d ∈ w, d ∈ priceDeltas prices := by
  unfold rsi at hx
  rcases List.mem_filterMap.mp hx with ⟨i, _, hmap⟩
  by_cases h : length ≤ i + 1
  · rw [if_pos h] at hmap
    refine ⟨_, (Option.some.inj hmap).symm, ?_⟩
    intro d hd
    exact List.drop_subset _ _ (List.take_subset _ _ hd)
  · rw [if_neg h] at hmap
    exact Option.noConfusion hmap

theorem priceDeltas_zero (c : ℚ) (prices : List ℚ) (h : ∀ p ∈ prices, p = c) :
    ∀ d ∈ priceDeltas prices, d = 0 := by
  induction prices with
  | nil =>
    intro d hd
    simp [priceDeltas] at hd
  | cons a rest ih =>
    intro d hd
    cases rest with
    | nil => simp [priceDeltas] at hd
    | cons b rest2 =>
      have hstep : priceDeltas (a :: b :: rest2)
          = (b - a) :: priceDeltas (b :: rest2) := rfl
      rw [hstep] at hd
      rcases List.mem_cons.mp hd with rfl | hd'
      · rw [h a (by simp), h b (by simp)]
        ring
      · exact ih (fun p hp => h p (List.mem_cons_of_mem a hp)) d hd'

/-- C5: for any positive lookback, every defined RSI value of any price
series lies in [0, 100]; the denominator used in the ratio is always
strictly positive (zero rolling loss is replaced by the epsilon 1e-9,
never divided as zero); and on an all-equal price series every defined
value is computed (to 0) without any division-by-zero. -/
theorem rsi_bounded (length : ℕ) (prices : List ℚ) (h : 0 < length) :
    (∀ x ∈ rsi length prices, 0 ≤ x ∧ x ≤ 100)
    ∧ (∀ w : List ℚ, 0 < rsiDenom length w)
    ∧ (∀ c : ℚ, (∀ p ∈ prices, p = c) → ∀ x ∈ rsi length prices, x = 0) := by
  refine ⟨?_, fun w => rsiDenom_pos length w, ?_⟩
  · intro x hx
    rcases mem_rsi length prices x hx with ⟨w, rfl, _⟩
    exact rsiWindow_bounds length w
  · intro c hc x hx
    rcases mem_rsi length prices x hx with ⟨w, rfl, hw⟩
    exact rsiWindow_zeros length w (fun d hd => priceDeltas_zero c prices hc d (hw d hd))

/-- C5 witness: lookback 2 on the all-equal series [1, 1, 1, 1] — bounds hold
and every defined value is 0; nothing raised. -/
theorem rsi_bounded_witness :
    0 < 2 ∧ (∀ x ∈ rsi 2 [1, 1, 1, 1], 0 ≤ x ∧ x ≤ 100)
    ∧ ∀ x ∈ rsi 2 [(1 : ℚ), 1, 1, 1], x = 0 :=
  ⟨by norm_num, (rsi_bounded 2 [1, 1, 1, 1] (by norm_num)).1,
    (rsi_bounded 2 [1, 1, 1, 1] (by norm_num)).2.2 1 (by
      intro p hp
      simp at hp
      rw [hp])⟩

/-! ## Claim C9 — failure while closing one position -/

/-- C9 counterexample: two open positions both qualify for a stop-loss exit
(entry 100, current 90, stop −1%); the sell submission for the first
("AAA") raises.  The loop body of `manage_positions` has no `try`, so the
exception propagates and the second qualifying position ("BBB") is never
attempted in that cycle — contradicting the claim that the remaining
positions are still evaluated. -/
theorem manage_positions_abort_counterexample :
    manage_positions_run (-1) (3 / 2)
        (fun o => if o.symbol = "AAA" then Except.error "rejected" else Except.ok ())
        [⟨"AAA", 100, 90, 1⟩, ⟨"BBB", 100, 90, 1⟩]
      = ([marketSellDay "AAA" 1], some "rejected")
    ∧ exit_decision (-1) (3 / 2) ⟨"BBB", 100, 90, 1⟩ = some (marketSellDay "BBB" 1)
    ∧ marketSellDay "BBB" 1 ∉ [marketSellDay "AAA" 1] := by
  have hA : exit_decision (-1) (3 / 2) ⟨"AAA", 100, 90, 1⟩
      = some (marketSellDay "AAA" 1) := by
    norm_num [exit_decision]
  refine ⟨?_, ?_, ?_⟩
  · unfold manage_positions_run
    rw [hA]
    simp [marketSellDay]
  · norm_num [exit_decision]
  · simp [marketSellDay]

/-- C9 amended: when the sell submission for a qualifying position raises,
`manage_positions` aborts immediately — the error propagates (to the outer
loop handler) and the remaining positions, qualifying or not, are not
evaluated in that cycle. -/
theorem manage_positions_abort (stop_loss_pct take_profit_pct : ℚ)
    (submit : Order → Except String Unit) (p : Position) (ps : List Position)
    (o : Order) (e : String)
    (h1 : exit_decision stop_loss_pct take_profit_pct p = some o)
    (h2 : submit o = Except.error e) :
    manage_positions_run stop_loss_pct take_profit_pct submit (p :: ps)
      = ([o], some e) := by
  simp [manage_positions_run, h1, h2]

/-- C9 amended witness: one qualifying position whose sell raises, followed
by another position — the run stops at the first with the error. -/
theorem manage_positions_abort_witness :
    exit_decision (-1) (3 / 2) ⟨"CCC", 100, 90, 2⟩ = some (marketSellDay "CCC" 2)
    ∧ (fun _ : Order => (Except.error "down" : Except String Unit))
        (marketSellDay "CCC" 2) = Except.error "down"
    ∧ manage_positions_run (-1) (3 / 2)
        (fun _ => Except.error "down") [⟨"CCC", 100, 90, 2⟩, ⟨"DDD", 100, 200, 1⟩]
      = ([marketSellDay "CCC" 2], some "down") :=
  ⟨by norm_num [exit_decision], rfl,
    manage_positions_abort (-1) (3 / 2) (fun _ => Except.error "down")
      ⟨"CCC", 100, 90, 2⟩ [⟨"DDD", 100, 200, 1⟩] (marketSellDay "CCC" 2) "down"
      (by norm_num [exit_decision]) rfl⟩

/-! ## Claim C8 — spend monotonicity within a date, reset on date change -/

theorem spentOn_applyOp (tk : String) (st : BotState) (op : RiskOp)
    (h : spendNonneg op = true) :
    spentOn tk st ≤ spentOn tk (applyOp tk st op) := by
  cases op with
  | spendOp now amount symbol =>
    rw [applyOp, spentOn_register_spend]
    have : (0 : ℚ) ≤ amount := by
      simpa [spendNonneg] using h
    linarith
  | controlsOp =>
    rw [applyOp]
    unfold compute_daily_controls
    cases hl : lookupDay tk st with
    | none =>
      simp only []
      have hr : spentOn tk (setDay tk ⟨0, 0, []⟩ st) = 0 := by
        rw [spentOn, lookupDay_setDay_self]
        rfl
      rw [hr, spentOn, hl]
      simp
    | some d => simp

theorem spentOn_applyOps (tk : String) (ops : List RiskOp) (st : BotState)
    (h : ∀ op ∈ ops, spendNonneg op = true) :
    spentOn tk st ≤ spentOn tk (applyOps tk st ops) := by
  induction ops generalizing st with
  | nil => simp [applyOps]
  | cons op rest ih =>
    rw [applyOps]
    exact le_trans (spentOn_applyOp tk st op (h op (List.mem_cons_self op rest)))
      (ih (applyOp tk st op) (fun x hx => h x (List.mem_cons_of_mem op hx)))

/-- C8: over any sequence of risk-state transitions under a fixed date key
in which every recorded spend amount is non-negative, `cumulative_spend`
("spent") never decreases; and the first `compute_daily_controls` under a
date key not yet in the state installs a fresh record with spent 0, a zero
timestamp, and an empty per-symbol trade map. -/
theorem spend_monotone_and_daily_reset (tk : String) (ops : List RiskOp)
    (st : BotState) (h : ∀ op ∈ ops, spendNonneg op = true) :
    spentOn tk st ≤ spentOn tk (applyOps tk st ops)
    ∧ ∀ (tk2 : String) (st2 : BotState), lookupDay tk2 st2 = none →
        lookupDay tk2 (compute_daily_controls tk2 st2).1 = some ⟨0, 0, []⟩ := by
  refine ⟨spentOn_applyOps tk ops st h, ?_⟩
  intro tk2 st2 habs
  unfold compute_daily_controls
  rw [habs]
  exact lookupDay_setDay_self tk2 ⟨0, 0, []⟩ st2

/-- C8 witness: two spends (5.00 then 27.50) and a controls refresh under
one date key never decrease the spend; a fresh date key starts zeroed. -/
theorem spend_monotone_and_daily_reset_witness :
    (∀ op ∈ [RiskOp.spendOp 1000 5 (some "SPY"), RiskOp.controlsOp,
        RiskOp.spendOp 2000 (55 / 2) none], spendNonneg op = true)
    ∧ spentOn "2025-01-02" []
        ≤ spentOn "2025-01-02" (applyOps "2025-01-02" []
            [RiskOp.spendOp 1000 5 (some "SPY"), RiskOp.controlsOp,
              RiskOp.spendOp 2000 (55 / 2) none])
    ∧ ∀ (tk2 : String) (st2 : BotState), lookupDay tk2 st2 = none →
        lookupDay tk2 (compute_daily_controls tk2 st2).1 = some ⟨0, 0, []⟩ := by
  have hops : ∀ op ∈ [RiskOp.spendOp 1000 5 (some "SPY"), RiskOp.controlsOp,
      RiskOp.spendOp 2000 (55 / 2) none], spendNonneg op = true := by
    intro op hop
    simp only [List.mem_cons, List.mem_singleton] at hop
    rcases hop with rfl | rfl | rfl | h
    · norm_num [spendNonneg]
    · rfl
    · norm_num [spendNonneg]
    · cases h
  exact ⟨hops,
    (spend_monotone_and_daily_reset "2025-01-02"
        [RiskOp.spendOp 1000 5 (some "SPY"), RiskOp.controlsOp,
          RiskOp.spendOp 2000 (55 / 2) none] [] hops).1,
    (spend_monotone_and_daily_reset "2025-01-02"
        [RiskOp.spendOp 1000 5 (some "SPY"), RiskOp.controlsOp,
          RiskOp.spendOp 2000 (55 / 2) none] [] hops).2⟩

/-! ## Claim C3 — exit manager first, unaffected by daily stop gates -/

/-- C3: in every cycle the trace starts with exactly the exit orders of
`manage_positions` — computed from the open positions and the exit
thresholds alone, for *any* account snapshot, risk state, and gate
configuration — and no exit-order event occurs later in the cycle: the
daily stop gates are evaluated only after the Exit Manager has run and
cannot affect which exit orders it submits. -/
theorem exit_manager_first_and_gate_independent
    (stop_loss_pct take_profit_pct : ℚ) (positions : List Position)
    (c : ScanCtx) (acct : Acct)
    (use_equity_pct daily_profit_goal daily_max_loss daily_loss_stop_pct : ℚ)
    (allow_extended_hours : Bool) (cooldown_sec : ℚ) (max_open_positions : ℕ)
    (max_daily_spend cash_buffer order_notional : ℚ) (syms : List String)
    (st : BotState) :
    ∃ rest,
      cycle_trace stop_loss_pct take_profit_pct positions c acct
          use_equity_pct daily_profit_goal daily_max_loss daily_loss_stop_pct
          allow_extended_hours cooldown_sec max_open_positions
          max_daily_spend cash_buffer order_notional syms st
        = (manage_positions stop_loss_pct take_profit_pct positions).map
            Event.exitOrder ++ rest
      ∧ ∀ ev ∈ rest, isExitEvent ev = false := by
  refine ⟨_, rfl, ?_⟩
  intro ev hev
  cases hg : daily_stop_gate daily_profit_goal daily_max_loss
      daily_loss_stop_pct acct.equity (acct.equity - acct.last_equity)
      (compute_daily_controls c.tk st).2 max_daily_spend with
  | some g =>
    rw [hg] at hev
    rcases List.mem_singleton.mp hev with rfl
    rfl
  | none =>
    rw [hg] at hev
    rcases List.mem_map.mp hev with ⟨o, _, rfl⟩
    rfl

/-! ## Claim C1 — the undefined `can_trade_symbol` aborts every scan -/

/-- C1: when the entry scan resolves `can_trade_symbol` the way the program
does (the name is defined nowhere, so the call raises `NameError`), then in
any cycle whose scan reaches a symbol that is neither in `open_syms` nor
reported by `position_exists`, the scan aborts with that `NameError` (caught
only by the outer loop handler), no buy order is submitted, and no spend is
registered — the risk state is returned unchanged. -/
theorem entry_scan_name_error (c : ScanCtx) (notional : ℚ) (st : BotState)
    (syms : List String)
    (hresolve : c.canTrade
      = fun sym => can_trade_symbol st sym MAX_TRADES_PER_SYMBOL)
    (h : ∃ sym ∈ syms, sym ∉ c.openSyms ∧ c.posExists sym = false) :
    (entry_scan c notional st syms).err
        = some (PyError.nameError "name 'can_trade_symbol' is not defined")
    ∧ (entry_scan c notional st syms).buys = []
    ∧ (entry_scan c notional st syms).state = st := by
  induction syms with
  | nil =>
    rcases h with ⟨s, hs, _⟩
    cases hs
  | cons sym rest ih =>
    by_cases h1 : sym ∈ c.openSyms
    · have h' : ∃ s ∈ rest, s ∉ c.openSyms ∧ c.posExists s = false := by
        rcases h with ⟨s, hs, hno, hpe⟩
        rcases List.mem_cons.mp hs with rfl | hs'
        · exact absurd h1 hno
        · exact ⟨s, hs', hno, hpe⟩
      simpa [entry_scan, h1] using ih h'
    · by_cases h2 : c.posExists sym = true
      · have h' : ∃ s ∈ rest, s ∉ c.openSyms ∧ c.posExists s = false := by
          rcases h with ⟨s, hs, hno, hpe⟩
          rcases List.mem_cons.mp hs with rfl | hs'
          · rw [hpe] at h2
            cases h2
          · exact ⟨s, hs', hno, hpe⟩
        simpa [entry_scan, h1, h2] using ih h'
      · simp [entry_scan, h1, h2, hresolve, can_trade_symbol]

/-- C1 witness: a single configured symbol, no open positions, and
`position_exists` reporting nothing — the scan raises the `NameError`,
submits no buy, and leaves the (empty) risk state unchanged. -/
theorem entry_scan_name_error_witness :
    (∃ sym ∈ ["SPY"], sym ∉ ([] : List String)
        ∧ (fun _ : String => false) sym = false)
    ∧ (entry_scan
          ⟨fun sym => can_trade_symbol [] sym MAX_TRADES_PER_SYMBOL,
            fun _ => ⟨120, 1, 1, 60, 100, 100, 10⟩, true, "2025-01-02", 0, [],
            fun _ => false⟩
          (65 / 2) [] ["SPY"]).err
        = some (PyError.nameError "name 'can_trade_symbol' is not defined")
    ∧ (entry_scan
          ⟨fun sym => can_trade_symbol [] sym MAX_TRADES_PER_SYMBOL,
            fun _ => ⟨120, 1, 1, 60, 100, 100, 10⟩, true, "2025-01-02", 0, [],
            fun _ => false⟩
          (65 / 2) [] ["SPY"]).buys = [] := by
  have h : ∃ sym ∈ ["SPY"], sym ∉ ([] : List String)
      ∧ (fun _ : String => false) sym = false :=
    ⟨"SPY", by simp, by simp, rfl⟩
  refine ⟨h, ?_, ?_⟩
  · exact (entry_scan_name_error
      ⟨fun sym => can_trade_symbol [] sym MAX_TRADES_PER_SYMBOL,
        fun _ => ⟨120, 1, 1, 60, 100, 100, 10⟩, true, "2025-01-02", 0, [],
        fun _ => false⟩
      (65 / 2) [] ["SPY"] rfl h).1
  · exact (entry_scan_name_error
      ⟨fun sym => can_trade_symbol [] sym MAX_TRADES_PER_SYMBOL,
        fun _ => ⟨120, 1, 1, 60, 100, 100, 10⟩, true, "2025-01-02", 0, [],
        fun _ => false⟩
      (65 / 2) [] ["SPY"] rfl h).2.1

/-! ## Claim C2 — per-symbol eligibility -/

theorem submit_buy_notional_symbol (is_open : Bool) (last_close : ℚ)
    (sym : String) (notional : ℚ) :
    (submit_buy_notional is_open last_close sym notional).symbol = sym := by
  unfold submit_buy_notional
  split <;> rfl

theorem entry_scan_buy_mem (c : ScanCtx) (f : String → Bool) (notional : ℚ)
    (st : BotState) (sym : String)
    (hres : c.canTrade = fun y => Except.ok (f y)) :
    ∀ syms : List String,
      (∃ o ∈ (entry_scan c notional st syms).buys, o.symbol = sym) →
      sym ∉ c.openSyms ∧ c.posExists sym = false ∧ f sym = true := by
  intro syms
  induction syms with
  | nil =>
    intro hbuy
    simp [entry_scan, skipOut] at hbuy
  | cons y rest ih =>
    intro hbuy
    by_cases h1 : y ∈ c.openSyms
    · exact ih (by simpa [entry_scan, h1] using hbuy)
    · by_cases h2 : c.posExists y = true
      · exact ih (by simpa [entry_scan, h1, h2] using hbuy)
      · cases hf : f y with
        | false =>
          exact ih (by simpa [entry_scan, h1, h2, hres, hf] using hbuy)
        | true =>
          by_cases h3 : (c.info y).barsLen = 0 ∨ (c.info y).barsLen < 50
          · exact ih (by simpa [entry_scan, h1, h2, hres, hf, h3] using hbuy)
          · by_cases h4 : strong_buy_signal (c.info y).ema9 (c.info y).ema21
                (c.info y).rsiLast (c.info y).volume (c.info y).volAvg = true
            · have hsym : y = sym := by
                have := hbuy
                simp [entry_scan, h1, h2, hres, hf, h3, h4,
                  submit_buy_notional_symbol] at this
                exact this
              subst hsym
              have h2' : c.posExists y = false := by
                cases hpe : c.posExists y
                · rfl
                · exact absurd hpe h2
              exact ⟨h1, h2', hf⟩
            · exact ih (by simpa [entry_scan, h1, h2, hres, hf, h3, h4] using hbuy)

/-- C2 (spec-modelled `can_trade_symbol`): whenever the entry section of a
cycle buys a symbol, that symbol was not already held (neither listed in
`open_syms` nor reported by `position_exists`), its per-symbol trade count
was strictly below the daily cap, and — because every trade refreshes the
global `last_trade_ts`, so the symbol's own last trade is no later than it —
the symbol was not within its cooldown window. -/
theorem entry_eligibility (c : ScanCtx) (allow_extended_hours : Bool)
    (cooldown_sec : ℚ) (max_open_positions : ℕ)
    (max_daily_spend spent buying_power cash_buffer order_notional : ℚ)
    (syms : List String) (st : BotState) (cap : ℕ) (sym : String)
    (symLastTs : ℚ)
    (hres : c.canTrade = fun y => Except.ok (can_trade_symbol_spec c.tk st y cap))
    (hts : symLastTs ≤ lastTradeTsOn c.tk st)
    (hbuy : ∃ o ∈ (entry_cycle c allow_extended_hours cooldown_sec
        max_open_positions max_daily_spend spent buying_power cash_buffer
        order_notional syms st).buys, o.symbol = sym) :
    sym ∉ c.openSyms ∧ c.posExists sym = false
    ∧ tradesOn c.tk sym st < cap
    ∧ ¬ (c.now - symLastTs < cooldown_sec) := by
  unfold entry_cycle at hbuy
  by_cases g1 : can_trade_now c.is_open allow_extended_hours
  · by_cases g2 : should_cooldown c.tk st c.now cooldown_sec = true
    · simp [g1, g2, skipOut] at hbuy
    · by_cases g3 : max_open_positions ≤ c.openSyms.dedup.length
      · simp [g1, g2, g3, skipOut] at hbuy
      · cases hsz : entry_sizing max_daily_spend spent buying_power
            cash_buffer order_notional with
        | none => simp [g1, g2, g3, hsz, skipOut] at hbuy
        | some n =>
          have hbuy' : ∃ o ∈ (entry_scan c n st syms).buys, o.symbol = sym := by
            simpa [g1, g2, g3, hsz] using hbuy
          have hmain := entry_scan_buy_mem c
            (fun y => can_trade_symbol_spec c.tk st y cap) n st sym hres syms hbuy'
          have hcool : ¬ (c.now - symLastTs < cooldown_sec) := by
            intro hlt
            apply g2
            unfold should_cooldown
            have : c.now - lastTradeTsOn c.tk st < cooldown_sec := by linarith
            exact decide_eq_true this
          have hcap : tradesOn c.tk sym st < cap := by
            have := hmain.2.2
            unfold can_trade_symbol_spec at this
            exact of_decide_eq_true this
          exact ⟨hmain.1, hmain.2.1, hcap, hcool⟩
  · simp [g1, skipOut] at hbuy

/-- C2 witness: in the concrete context `c2ctx` (cooldown 900 s, last
global trade at t=0, now t=10000) the scan buys "SPY", and the symbol was
indeed unheld, under its cap, and out of cooldown. -/
theorem entry_eligibility_witness :
    (c2ctx.canTrade = fun y => Except.ok (can_trade_symbol_spec c2ctx.tk [] y 2))
    ∧ (0 : ℚ) ≤ lastTradeTsOn c2ctx.tk []
    ∧ (∃ o ∈ (entry_cycle c2ctx false 900 3 90 0 1000 2 30 ["SPY"] []).buys,
        o.symbol = "SPY")
    ∧ ("SPY" ∉ c2ctx.openSyms ∧ c2ctx.posExists "SPY" = false
        ∧ tradesOn c2ctx.tk "SPY" [] < 2 ∧ ¬ (c2ctx.now - 0 < 900)) := by
  have hres : c2ctx.canTrade
      = fun y => Except.ok (can_trade_symbol_spec c2ctx.tk [] y 2) := rfl
  have hts : (0 : ℚ) ≤ lastTradeTsOn c2ctx.tk [] := by
    simp [lastTradeTsOn, lookupDay]
  have hb : (entry_cycle c2ctx false 900 3 90 0 1000 2 30 ["SPY"] []).buys
      = [submit_buy_notional true 10 "SPY" 30] := by
    norm_num [entry_cycle, entry_scan, entry_sizing, can_trade_now,
      should_cooldown, lastTradeTsOn, lookupDay, c2ctx, can_trade_symbol_spec,
      tradesOn, countOf, strong_buy_signal, skipOut]
  have hbuy : ∃ o ∈ (entry_cycle c2ctx false 900 3 90 0 1000 2 30
      ["SPY"] []).buys, o.symbol = "SPY" := by
    rw [hb]
    exact ⟨submit_buy_notional true 10 "SPY" 30, List.mem_singleton_self _, rfl⟩
  exact ⟨hres, hts, hbuy,
    entry_eligibility c2ctx false 900 3 90 0 1000 2 30 ["SPY"] [] 2 "SPY" 0
      hres hts hbuy⟩

end EmlBot
